import Mathlib

/-!
# Shallow embedding of `src/Chapter02/mybuffer.cpp`

The C++ file defines a resource-owning class `Buffer` (rule of five):

* `Buffer::Buffer(const std::initializer_list<float>&)` — allocates
  `new float[values.size()]` and `std::copy`s the values in;
* `Buffer::Buffer(const Buffer&)` — copy constructor (fresh allocation, copy);
* `Buffer::operator=(const Buffer&)` — copy assignment
  (`delete[] ptr_; ptr_ = new float[other.size_]; size_ = other.size_; std::copy(...)`);
* `Buffer::~Buffer()` — destructor (`delete[] ptr_`);
* `Buffer::Buffer(Buffer&&)` — move constructor (steals `ptr_`/`size_`, nulls source);
* `Buffer::operator=(Buffer&&)` — move assignment
  (`ptr_ = other.ptr_; size_ = other.size_; other.ptr_ = nullptr; other.size_ = 0;`
  note: no `delete[]` of the destination's old pointer);
* `Buffer::swap(Buffer&)` — `std::swap(size_, other.size_); std::swap(ptr_, other.ptr_)`.

We embed the heap explicitly: an allocation id maps to a block of cells, where a
cell is `Option α` (`none` models an uninitialized float slot, as produced by
`new float[n]` before anything is copied in).  `delete[]` of a pointer that is
not null and not a live allocation is undefined behaviour, modelled by returning
`none`.  The element type is an arbitrary `α`: the program only stores and
copies its floats, never computes with them, so value copying is all that
matters.  A null `float*` is `Option.none`; a non-null pointer is `some id`.
-/

/-- A cell of an allocated block: `none` models an uninitialized float slot. -/
abbrev Cell (α : Type) := Option α

/-- One heap block: the contents of a single `new float[n]` allocation. -/
abbrev Block (α : Type) := List (Cell α)

/-- The heap: live allocations (id, block) plus a counter supplying fresh ids. -/
structure Heap (α : Type) where
  next : Nat
  blocks : List (Nat × Block α)
deriving Repr, DecidableEq

/-- First block registered under `id`, if any. -/
def findBlock {α : Type} : List (Nat × Block α) → Nat → Option (Block α)
  | [], _ => none
  | (k, b) :: rest, id => if k = id then some b else findBlock rest id

/-- Remove the first block registered under `id`. -/
def removeBlock {α : Type} : List (Nat × Block α) → Nat → List (Nat × Block α)
  | [], _ => []
  | (k, b) :: rest, id => if k = id then rest else (k, b) :: removeBlock rest id

/-- Replace the contents of the first block registered under `id`. -/
def updateBlock {α : Type} : List (Nat × Block α) → Nat → Block α → List (Nat × Block α)
  | [], _, _ => []
  | (k, b) :: rest, id, nb => if k = id then (id, nb) :: rest else (k, b) :: updateBlock rest id nb

namespace Heap

variable {α : Type}

/-- The block a (non-null) pointer refers to, if it is live. -/
def lookupBlock (h : Heap α) (id : Nat) : Option (Block α) :=
  findBlock h.blocks id

/-- Models `new float[n]`: returns a fresh, non-null pointer to `n` uninitialized
cells.  Note that C++ `new float[0]` also returns a non-null pointer to a
zero-length allocation, which this models faithfully. -/
def allocArray (h : Heap α) (n : Nat) : Nat × Heap α :=
  (h.next, ⟨h.next + 1, (h.next, List.replicate n none) :: h.blocks⟩)

/-- Models `delete[] p`: a no-op on a null pointer; frees a live allocation; freeing a
non-null pointer that is not a live allocation (double free / invalid free) is
undefined behaviour, modelled as `none`. -/
def free (h : Heap α) (p : Option Nat) : Option (Heap α) :=
  match p with
  | none => some h
  | some id =>
    match findBlock h.blocks id with
    | none => none
    | some _ => some ⟨h.next, removeBlock h.blocks id⟩

/-- Read the `n` cells `p[0] .. p[n-1]` (a `std::copy` source range).  A
zero-length range is fine even from a null pointer; otherwise the pointer must
refer to a live block of at least `n` cells, else the read is undefined
behaviour (`none`). -/
def readRange (h : Heap α) (p : Option Nat) (n : Nat) : Option (List (Cell α)) :=
  if n = 0 then some []
  else
    match p with
    | none => none
    | some id =>
      match findBlock h.blocks id with
      | none => none
      | some blk => if n ≤ blk.length then some (blk.take n) else none

/-- Write `cells` into the slots `id[0] .. id[cells.length - 1]` (a `std::copy`
destination).  Writing past the end of the block, or through a dead pointer, is
undefined behaviour (`none`). -/
def storeCells (h : Heap α) (id : Nat) (cells : List (Cell α)) : Option (Heap α) :=
  match findBlock h.blocks id with
  | none => none
  | some blk =>
    if cells.length ≤ blk.length then
      some ⟨h.next, updateBlock h.blocks id (cells ++ blk.drop cells.length)⟩
    else none

/-- Store one value into slot `i` of block `id` (`ptr_[i] = v`). -/
def writeCell (h : Heap α) (id : Nat) (i : Nat) (v : α) : Option (Heap α) :=
  match findBlock h.blocks id with
  | none => none
  | some blk =>
    if i < blk.length then
      some ⟨h.next, updateBlock h.blocks id (blk.set i (some v))⟩
    else none

/-- Heap sanity: every live allocation id is below the fresh-id counter, so a
fresh allocation can never collide with a live one. -/
def wf (h : Heap α) : Prop :=
  ∀ p ∈ h.blocks, p.1 < h.next

instance (h : Heap α) : Decidable h.wf :=
  List.decidableBAll _ h.blocks

end Heap

/-- The `Buffer` object state: the private members
`size_t size_{0}; float* ptr_{nullptr};`.  The pointer is `none` for
`nullptr`, `some id` for a pointer to heap allocation `id`. -/
structure Buffer where
  size_ : Nat
  ptr_ : Option Nat
deriving Repr, DecidableEq

namespace Buffer

variable {α : Type}

/-- The element cells visible through the buffer's data pointer, in order:
`ptr_[0] .. ptr_[size_ - 1]`. -/
def readCells (b : Buffer) (h : Heap α) : Option (List (Cell α)) :=
  h.readRange b.ptr_ b.size_

/-- Models `Buffer::Buffer(const std::initializer_list<float>& values)`:
`size_(values.size()), ptr_(new float[values.size()])` then
`std::copy(values.begin(), values.end(), ptr_)`. -/
def initList (vals : List α) (h : Heap α) : Option (Buffer × Heap α) :=
  let (id, h1) := h.allocArray vals.length
  match h1.storeCells id (vals.map some) with
  | none => none
  | some h2 => some (⟨vals.length, some id⟩, h2)

/-- Models `Buffer::Buffer(const Buffer& other)`: `size_(other.size_)`, then
`ptr_ = new float[size_]` and `std::copy(other.ptr_, other.ptr_ + size_, ptr_)`. -/
def copyCtor (other : Buffer) (h : Heap α) : Option (Buffer × Heap α) :=
  let (id, h1) := h.allocArray other.size_
  match h1.readRange other.ptr_ other.size_ with
  | none => none
  | some cells =>
    match h1.storeCells id cells with
    | none => none
    | some h2 => some (⟨other.size_, some id⟩, h2)

/-- Models `Buffer::operator=(const Buffer& other)` when `this` and `other` are
distinct objects (so `other`'s members are unaffected by the writes to
`this`): `delete[] ptr_; ptr_ = new float[other.size_]; size_ = other.size_;
std::copy(other.ptr_, other.ptr_ + size_, ptr_);`.  The aliased call `b = b`
is traced separately by `copyAssignSelf`. -/
def copyAssign (this other : Buffer) (h : Heap α) : Option (Buffer × Heap α) :=
  match h.free this.ptr_ with
  | none => none
  | some h1 =>
    let (id, h2) := h1.allocArray other.size_
    match h2.readRange other.ptr_ other.size_ with
    | none => none
    | some cells =>
      match h2.storeCells id cells with
      | none => none
      | some h3 => some (⟨other.size_, some id⟩, h3)

/-- Models `Buffer::operator=(const Buffer& other)` when `other` aliases `this`
(`b = b`).  After `delete[] ptr_` and `ptr_ = new float[other.size_]`, the
reference `other` sees the updated members, so `std::copy(other.ptr_,
other.ptr_ + size_, ptr_)` reads from the freshly allocated (uninitialized)
block, not from the original data. -/
def copyAssignSelf (b : Buffer) (h : Heap α) : Option (Buffer × Heap α) :=
  match h.free b.ptr_ with
  | none => none
  | some h1 =>
    let (id, h2) := h1.allocArray b.size_
    match h2.readRange (some id) b.size_ with
    | none => none
    | some cells =>
      match h2.storeCells id cells with
      | none => none
      | some h3 => some (⟨b.size_, some id⟩, h3)

/-- The observable state of `operator=(const Buffer&)` at the moment the
allocation `new float[other.size_]` fails (throws): `delete[] ptr_` has
already run, so the destination's previous block is already gone. -/
def copyAssignAtAllocFailure (this : Buffer) (h : Heap α) : Option (Heap α) :=
  h.free this.ptr_

/-- Models `Buffer::~Buffer()`: `delete[] ptr_` (the trailing `ptr_ = nullptr` is on
an object whose lifetime ends, so only the free is observable). -/
def destroy (b : Buffer) (h : Heap α) : Option (Heap α) :=
  h.free b.ptr_

/-- Models `Buffer::Buffer(Buffer&& other) noexcept`: `size_(other.size_),
ptr_(other.ptr_)`, then `other.ptr_ = nullptr; other.size_ = 0`.  Returns
(new object, source after the move); no heap operation is performed. -/
def moveCtor (other : Buffer) : Buffer × Buffer :=
  (⟨other.size_, other.ptr_⟩, ⟨0, none⟩)

/-- Models `Buffer::operator=(Buffer&& other) noexcept` when `this` and `other` are
distinct objects: `ptr_ = other.ptr_; size_ = other.size_; other.ptr_ =
nullptr; other.size_ = 0`.  Note the source performs NO `delete[]` of the
destination's previous pointer; the heap passes through unchanged.  Returns
(destination, source, heap). -/
def moveAssign (this other : Buffer) (h : Heap α) : Buffer × Buffer × Heap α :=
  (⟨other.size_, other.ptr_⟩, ⟨0, none⟩, h)

/-- Models `Buffer::operator=(Buffer&& other)` when `other` aliases `this`
(`b = std::move(b)`), traced member-write by member-write. -/
def moveAssignSelf (b : Buffer) : Buffer :=
  let b1 : Buffer := ⟨b.size_, b.ptr_⟩
  let b2 : Buffer := ⟨b1.size_, none⟩
  ⟨0, b2.ptr_⟩

/-- Models `Buffer::swap(Buffer& other)`: `std::swap(size_, other.size_);
std::swap(ptr_, other.ptr_)`.  No heap operation occurs (the signature takes
no heap), hence no allocation and no failure path. -/
def swap (a b : Buffer) : Buffer × Buffer :=
  (⟨b.size_, b.ptr_⟩, ⟨a.size_, a.ptr_⟩)

/-- Models `ptr_[i] = v` for `i < size_`: mutation of one element through the
buffer's data pointer. -/
def writeThrough (b : Buffer) (i : Nat) (v : α) (h : Heap α) : Option (Heap α) :=
  match b.ptr_ with
  | none => none
  | some id => if i < b.size_ then h.writeCell id i v else none

/-- The basic consistency of a buffer with a heap: a null pointer means size
zero, and a non-null pointer refers to a live block of exactly `size_` cells. -/
def wfIn (b : Buffer) (h : Heap α) : Prop :=
  match b.ptr_ with
  | none => b.size_ = 0
  | some id => (h.lookupBlock id).map (fun blk => blk.length) = some b.size_

instance (b : Buffer) (h : Heap α) : Decidable (b.wfIn h) := by
  unfold wfIn
  match b.ptr_ with
  | none => exact inferInstanceAs (Decidable (b.size_ = 0))
  | some id => exact inferInstanceAs (Decidable (_ = _))

end Buffer

/-! ## Association-list lemmas for the heap -/

theorem findBlock_cons_self {α : Type} (k : Nat) (b : Block α) (l : List (Nat × Block α)) :
    findBlock ((k, b) :: l) k = some b := by
  simp [findBlock]

theorem findBlock_cons_ne {α : Type} {k id : Nat} (hne : k ≠ id) (b : Block α)
    (l : List (Nat × Block α)) :
    findBlock ((k, b) :: l) id = findBlock l id := by
  simp [findBlock, hne]

theorem findBlock_mem {α : Type} {l : List (Nat × Block α)} {id : Nat} {blk : Block α}
    (hf : findBlock l id = some blk) : (id, blk) ∈ l := by
  induction l with
  | nil => simp [findBlock] at hf
  | cons p rest ih =>
    obtain ⟨k, b⟩ := p
    by_cases hk : k = id
    · subst hk
      simp [findBlock] at hf
      subst hf
      exact List.mem_cons_self _ _
    · rw [findBlock_cons_ne hk] at hf
      exact List.mem_cons_of_mem _ (ih hf)

theorem findBlock_updateBlock_self {α : Type} {l : List (Nat × Block α)} {id : Nat}
    {blk : Block α} (hf : findBlock l id = some blk) (nb : Block α) :
    findBlock (updateBlock l id nb) id = some nb := by
  induction l with
  | nil => simp [findBlock] at hf
  | cons p rest ih =>
    obtain ⟨k, b⟩ := p
    by_cases hk : k = id
    · subst hk
      simp [updateBlock, findBlock]
    · rw [findBlock_cons_ne hk] at hf
      simp only [updateBlock, if_neg hk]
      rw [findBlock_cons_ne hk]
      exact ih hf

theorem findBlock_updateBlock_ne {α : Type} {l : List (Nat × Block α)} {id id' : Nat}
    (hne : id' ≠ id) (nb : Block α) :
    findBlock (updateBlock l id nb) id' = findBlock l id' := by
  induction l with
  | nil => rfl
  | cons p rest ih =>
    obtain ⟨k, b⟩ := p
    by_cases hk : k = id
    · subst hk
      rw [show updateBlock ((k, b) :: rest) k nb = (k, nb) :: rest from by simp [updateBlock]]
      rw [findBlock_cons_ne (fun h => hne h.symm), findBlock_cons_ne (fun h => hne h.symm)]
    · simp only [updateBlock, if_neg hk]
      by_cases hk' : k = id'
      · subst hk'
        rw [findBlock_cons_self, findBlock_cons_self]
      · rw [findBlock_cons_ne hk', findBlock_cons_ne hk']
        exact ih

theorem findBlock_removeBlock_ne {α : Type} {l : List (Nat × Block α)} {id id' : Nat}
    (hne : id' ≠ id) :
    findBlock (removeBlock l id) id' = findBlock l id' := by
  induction l with
  | nil => rfl
  | cons p rest ih =>
    obtain ⟨k, b⟩ := p
    by_cases hk : k = id
    · subst hk
      rw [show removeBlock ((k, b) :: rest) k = rest from by simp [removeBlock]]
      rw [findBlock_cons_ne (fun h => hne h.symm)]
    · simp only [removeBlock, if_neg hk]
      by_cases hk' : k = id'
      · subst hk'
        rw [findBlock_cons_self, findBlock_cons_self]
      · rw [findBlock_cons_ne hk', findBlock_cons_ne hk']
        exact ih

theorem mem_removeBlock {α : Type} {l : List (Nat × Block α)} {id : Nat}
    {p : Nat × Block α} (hp : p ∈ removeBlock l id) : p ∈ l := by
  induction l with
  | nil => exact hp
  | cons q rest ih =>
    obtain ⟨k, b⟩ := q
    by_cases hk : k = id
    · subst hk
      simp only [removeBlock, if_pos rfl] at hp
      exact List.mem_cons_of_mem _ hp
    · simp only [removeBlock, if_neg hk] at hp
      rcases List.mem_cons.mp hp with h | h
      · exact h ▸ List.mem_cons_self _ _
      · exact List.mem_cons_of_mem _ (ih h)

theorem mem_updateBlock {α : Type} {l : List (Nat × Block α)} {id : Nat} {nb : Block α}
    {p : Nat × Block α} (hp : p ∈ updateBlock l id nb) : p = (id, nb) ∨ p ∈ l := by
  induction l with
  | nil => simp [updateBlock] at hp
  | cons q rest ih =>
    obtain ⟨k, b⟩ := q
    by_cases hk : k = id
    · subst hk
      simp only [updateBlock, if_pos rfl] at hp
      rcases List.mem_cons.mp hp with h | h
      · exact Or.inl h
      · exact Or.inr (List.mem_cons_of_mem _ h)
    · simp only [updateBlock, if_neg hk] at hp
      rcases List.mem_cons.mp hp with h | h
      · exact Or.inr (h ▸ List.mem_cons_self _ _)
      · rcases ih h with h' | h'
        · exact Or.inl h'
        · exact Or.inr (List.mem_cons_of_mem _ h')

theorem Heap.wf_lt_next {α : Type} {h : Heap α} (hwf : h.wf) {id : Nat} {blk : Block α}
    (hf : findBlock h.blocks id = some blk) : id < h.next :=
  hwf _ (findBlock_mem hf)

/-! ## Operation-level helper lemmas -/

theorem updateBlock_cons_self {α : Type} (k : Nat) (b nb : Block α) (l : List (Nat × Block α)) :
    updateBlock ((k, b) :: l) k nb = (k, nb) :: l := by
  simp [updateBlock]

theorem removeBlock_cons_self {α : Type} (k : Nat) (b : Block α) (l : List (Nat × Block α)) :
    removeBlock ((k, b) :: l) k = l := by
  simp [removeBlock]

/-- Storing cells of the right length into a freshly allocated block replaces
its uninitialized contents by exactly those cells. -/
theorem Heap.storeCells_alloc {α : Type} (h : Heap α) (n : Nat) (cells : List (Cell α))
    (hlen : cells.length = n) :
    (Heap.mk (h.next + 1) ((h.next, List.replicate n (none : Cell α)) :: h.blocks)).storeCells
        h.next cells
      = some ⟨h.next + 1, (h.next, cells) :: h.blocks⟩ := by
  unfold Heap.storeCells
  rw [show findBlock ((h.next, List.replicate n (none : Cell α)) :: h.blocks) h.next
        = some (List.replicate n none) from findBlock_cons_self _ _ _]
  simp only [List.length_replicate, hlen, le_refl, if_true]
  rw [updateBlock_cons_self]
  simp [hlen]

/-- Reading a valid range out of a live block yields its first `n` cells. -/
theorem Heap.readRange_of_findBlock {α : Type} {h : Heap α} {id : Nat} {blk : Block α}
    (hf : findBlock h.blocks id = some blk) {n : Nat} (hn : n ≤ blk.length) :
    h.readRange (some id) n = some (blk.take n) := by
  unfold Heap.readRange
  by_cases h0 : n = 0
  · subst h0
    simp
  · simp [h0, hf, hn]

/-! ## Claim theorems -/

/-- C1: For every input sequence S (including the empty one), constructing a
`Buffer` from S succeeds and yields a buffer whose `size_` equals S's length
and whose elements, read back in order through its data pointer, are exactly
the elements of S in order. -/
theorem initList_roundtrip {α : Type} (vals : List α) (h : Heap α) :
    ∃ b h2, Buffer.initList vals h = some (b, h2) ∧
      b.size_ = vals.length ∧ b.readCells h2 = some (vals.map some) := by
  refine ⟨⟨vals.length, some h.next⟩, ⟨h.next + 1, (h.next, vals.map some) :: h.blocks⟩,
    ?_, rfl, ?_⟩
  · have hs := Heap.storeCells_alloc h vals.length (vals.map some) (by simp)
    unfold Buffer.initList Heap.allocArray
    simp only
    rw [hs]
  · have hf : findBlock ((h.next, vals.map some) :: h.blocks) h.next = some (vals.map some) :=
      findBlock_cons_self _ _ _
    unfold Buffer.readCells
    rw [Heap.readRange_of_findBlock hf (by simp)]
    simp

/-- C3: Moving a buffer B into a destination, by move construction or by move
assignment into a distinct destination, yields a destination holding B's
original size and element sequence, and leaves B with size 0 and a null data
pointer. -/
theorem move_transfers_and_empties_source {α : Type} (d b : Buffer) (h : Heap α) :
    (Buffer.moveCtor b).1.size_ = b.size_ ∧
    (Buffer.moveCtor b).1.readCells h = b.readCells h ∧
    (Buffer.moveCtor b).2 = ⟨0, none⟩ ∧
    (Buffer.moveAssign d b h).1.size_ = b.size_ ∧
    (Buffer.moveAssign d b h).1.readCells (Buffer.moveAssign d b h).2.2 = b.readCells h ∧
    (Buffer.moveAssign d b h).2.1 = ⟨0, none⟩ :=
  ⟨rfl, rfl, rfl, rfl, rfl, rfl⟩

/-- C6: `swap(A, B)` exchanges exactly the sizes and the allocation ownership
of the two buffers: afterwards A reads back B's original element sequence and
B reads back A's.  The embedded `Buffer.swap` does not touch the heap at all
(its type takes no heap), so the swap performs no allocation and has no
failure path. -/
theorem swap_exchanges {α : Type} (a b : Buffer) (h : Heap α) :
    (Buffer.swap a b).1.size_ = b.size_ ∧ (Buffer.swap a b).2.size_ = a.size_ ∧
    (Buffer.swap a b).1.ptr_ = b.ptr_ ∧ (Buffer.swap a b).2.ptr_ = a.ptr_ ∧
    (Buffer.swap a b).1.readCells h = b.readCells h ∧
    (Buffer.swap a b).2.readCells h = a.readCells h :=
  ⟨rfl, rfl, rfl, rfl, rfl, rfl⟩

/-- C10: Self-move-assignment `b = std::move(b)` leaves b specifically in the
empty state — size 0 and null data pointer, not unchanged — and a subsequent
destructor call frees nothing (the heap passes through untouched), so there is
no double free. -/
theorem moveAssignSelf_empties {α : Type} (b : Buffer) (h : Heap α) :
    Buffer.moveAssignSelf b = ⟨0, none⟩ ∧
    (Buffer.moveAssignSelf b).destroy h = some h :=
  ⟨rfl, rfl⟩

/-- C4 (code bug): evaluating the traced self-copy-assignment `b = b` on a
buffer holding [1, 2, 3] shows the operation completes (so no double free in
this run), but the elements read back afterwards are three uninitialized
cells, not the original values: `std::copy`'s source `other.ptr_` aliases the
freshly allocated block, so the original data — already freed — is never
copied back. -/
theorem copyAssignSelf_clobbers_elements :
    Buffer.copyAssignSelf ⟨3, some 0⟩ (⟨1, [(0, [some (1 : Int), some 2, some 3])]⟩ : Heap Int)
        = some (⟨3, some 1⟩, ⟨2, [(1, [none, none, none])]⟩) ∧
    Buffer.readCells ⟨3, some 1⟩ (⟨2, [(1, [none, none, none])]⟩ : Heap Int)
        = some [none, none, none] ∧
    ([none, none, none] : List (Cell Int)) ≠ [some 1, some 2, some 3] := by
  decide

/-- C5 (code bug): `operator=(const Buffer&)` runs `delete[] ptr_` BEFORE
attempting `new float[other.size_]`.  At the observable point where that
allocation fails, a destination that held [1, 2, 3] in block 0 has already
had that allocation released (the heap no longer contains block 0), so the
destination's previous state is not preserved. -/
theorem copyAssign_frees_destination_before_alloc :
    Buffer.copyAssignAtAllocFailure ⟨3, some 0⟩
        (⟨1, [(0, [some (1 : Int), some 2, some 3])]⟩ : Heap Int)
      = some ⟨1, []⟩ ∧
    (⟨1, ([] : List (Nat × Block Int))⟩ : Heap Int).lookupBlock 0 = none := by
  decide

/-- C9 (code bug): move assignment performs no `delete[]` of the destination's
previously owned pointer.  With the destination owning block 0 (holding
[10, 20]) and the source owning block 1, after `d = std::move(s)` block 0 is
still live in the (unchanged) heap while neither resulting buffer points to
it: the destination's old allocation is leaked, never released. -/
theorem moveAssign_leaks_destination_allocation :
    (Buffer.moveAssign ⟨2, some 0⟩ ⟨3, some 1⟩
        (⟨2, [(0, [some (10 : Int), some 20]), (1, [some 7, some 8, some 9])]⟩ : Heap Int))
      = (⟨3, some 1⟩, ⟨0, none⟩,
          ⟨2, [(0, [some 10, some 20]), (1, [some 7, some 8, some 9])]⟩) ∧
    (⟨2, [(0, [some (10 : Int), some 20]), (1, [some 7, some 8, some 9])]⟩ : Heap Int).lookupBlock 0
      = some [some 10, some 20] ∧
    (⟨3, some 1⟩ : Buffer).ptr_ ≠ some 0 ∧ (⟨0, none⟩ : Buffer).ptr_ ≠ some 0 := by
  decide

/-- C7 counterexample: constructing a buffer from the EMPTY sequence yields
size 0 together with a NON-null data pointer (C++ `new float[0]` returns a
non-null pointer to a zero-length allocation), refuting the claimed invariant
"size == 0 implies null data pointer" for construction. -/
theorem empty_init_nonnull_counterexample :
    Buffer.initList ([] : List Int) ⟨0, []⟩ = some (⟨0, some 0⟩, ⟨1, [(0, [])]⟩) ∧
    (⟨0, some 0⟩ : Buffer).size_ = 0 ∧ (⟨0, some 0⟩ : Buffer).ptr_ ≠ none := by
  decide

/-- A buffer's read depends only on what its own pointer resolves to. -/
theorem Buffer.readCells_congr {α : Type} (b : Buffer) (h h2 : Heap α)
    (hsame : ∀ id, b.ptr_ = some id → findBlock h2.blocks id = findBlock h.blocks id) :
    b.readCells h2 = b.readCells h := by
  unfold Buffer.readCells Heap.readRange
  by_cases h0 : b.size_ = 0
  · simp [h0]
  · cases hp : b.ptr_ with
    | none => simp [h0]
    | some id => simp [h0, hsame id hp]

/-- Computation of the initializer-list constructor. -/
theorem Buffer.initList_eq {α : Type} (vals : List α) (h : Heap α) :
    Buffer.initList vals h
      = some (⟨vals.length, some h.next⟩,
              ⟨h.next + 1, (h.next, vals.map some) :: h.blocks⟩) := by
  have hs := Heap.storeCells_alloc h vals.length (vals.map some) (by simp)
  unfold Buffer.initList Heap.allocArray
  simp only
  rw [hs]

/-- Computation of the copy constructor from a live source buffer. -/
theorem Buffer.copyCtor_eq {α : Type} (b : Buffer) (h : Heap α) {id : Nat} {blk : Block α}
    (hwf : h.wf) (hp : b.ptr_ = some id) (hb : h.lookupBlock id = some blk)
    (hlen : b.size_ ≤ blk.length) :
    Buffer.copyCtor b h
      = some (⟨b.size_, some h.next⟩,
              ⟨h.next + 1, (h.next, blk.take b.size_) :: h.blocks⟩) := by
  have hid : id ≠ h.next := Nat.ne_of_lt (Heap.wf_lt_next hwf hb)
  have hf1 : findBlock ((h.next, List.replicate b.size_ (none : Cell α)) :: h.blocks) id
      = some blk := by
    rw [findBlock_cons_ne (fun he => hid he.symm)]
    exact hb
  have hr : (Heap.mk (h.next + 1)
        ((h.next, List.replicate b.size_ (none : Cell α)) :: h.blocks)).readRange
        (some id) b.size_ = some (blk.take b.size_) :=
    Heap.readRange_of_findBlock hf1 hlen
  have hs := Heap.storeCells_alloc h b.size_ (blk.take b.size_)
    (by simp [Nat.min_eq_left hlen])
  unfold Buffer.copyCtor Heap.allocArray
  simp only
  rw [hp, hr]
  simp [hs]

/-- Computation of the copy constructor from a null-pointer (moved-from or
defaulted) source of size 0. -/
theorem Buffer.copyCtor_none_eq {α : Type} (b : Buffer) (h : Heap α)
    (hp : b.ptr_ = none) (h0 : b.size_ = 0) :
    Buffer.copyCtor b h
      = some (⟨0, some h.next⟩, ⟨h.next + 1, (h.next, []) :: h.blocks⟩) := by
  have hs := Heap.storeCells_alloc h 0 ([] : List (Cell α)) (by simp)
  unfold Buffer.copyCtor Heap.allocArray Heap.readRange
  simp only [hp, h0, if_pos rfl]
  rw [show (List.replicate 0 (none : Cell α)) = [] from rfl] at hs
  simp [hs]

theorem updateBlock_cons_ne {α : Type} {k id : Nat} (hk : k ≠ id) (b nb : Block α)
    (l : List (Nat × Block α)) :
    updateBlock ((k, b) :: l) id nb = (k, b) :: updateBlock l id nb := by
  simp [updateBlock, hk]

theorem removeBlock_cons_ne {α : Type} {k id : Nat} (hk : k ≠ id) (b : Block α)
    (l : List (Nat × Block α)) :
    removeBlock ((k, b) :: l) id = (k, b) :: removeBlock l id := by
  simp [removeBlock, hk]

/-- C2: Copy construction from a live buffer `b` (pointer `id`, block `blk`)
yields a copy `b2` in a DISTINCT allocation with the same element sequence;
the copy does not disturb `b`; mutating the copy through its data pointer, or
destroying the copy, leaves `b`'s elements unchanged; and symmetrically,
mutating or destroying `b` leaves the copy's elements unchanged. -/
theorem copyCtor_deep_copy_independent {α : Type} (b : Buffer) (h : Heap α)
    (id : Nat) (blk : Block α) (i : Nat) (v : α)
    (hwf : h.wf) (hp : b.ptr_ = some id) (hb : h.lookupBlock id = some blk)
    (hlen : b.size_ ≤ blk.length) (hi : i < b.size_) :
    Buffer.copyCtor b h
      = some (⟨b.size_, some h.next⟩,
              ⟨h.next + 1, (h.next, blk.take b.size_) :: h.blocks⟩) ∧
    (some h.next : Option Nat) ≠ b.ptr_ ∧
    Buffer.readCells ⟨b.size_, some h.next⟩
        ⟨h.next + 1, (h.next, blk.take b.size_) :: h.blocks⟩ = b.readCells h ∧
    b.readCells ⟨h.next + 1, (h.next, blk.take b.size_) :: h.blocks⟩ = b.readCells h ∧
    Buffer.writeThrough ⟨b.size_, some h.next⟩ i v
        ⟨h.next + 1, (h.next, blk.take b.size_) :: h.blocks⟩
      = some ⟨h.next + 1, (h.next, (blk.take b.size_).set i (some v)) :: h.blocks⟩ ∧
    b.readCells ⟨h.next + 1, (h.next, (blk.take b.size_).set i (some v)) :: h.blocks⟩
      = b.readCells h ∧
    Buffer.destroy ⟨b.size_, some h.next⟩
        ⟨h.next + 1, (h.next, blk.take b.size_) :: h.blocks⟩
      = some ⟨h.next + 1, h.blocks⟩ ∧
    b.readCells ⟨h.next + 1, h.blocks⟩ = b.readCells h ∧
    Buffer.writeThrough b i v ⟨h.next + 1, (h.next, blk.take b.size_) :: h.blocks⟩
      = some ⟨h.next + 1,
              (h.next, blk.take b.size_) :: updateBlock h.blocks id (blk.set i (some v))⟩ ∧
    Buffer.readCells ⟨b.size_, some h.next⟩
        ⟨h.next + 1, (h.next, blk.take b.size_) :: updateBlock h.blocks id (blk.set i (some v))⟩
      = some (blk.take b.size_) ∧
    Buffer.destroy b ⟨h.next + 1, (h.next, blk.take b.size_) :: h.blocks⟩
      = some ⟨h.next + 1, (h.next, blk.take b.size_) :: removeBlock h.blocks id⟩ ∧
    Buffer.readCells ⟨b.size_, some h.next⟩
        ⟨h.next + 1, (h.next, blk.take b.size_) :: removeBlock h.blocks id⟩
      = some (blk.take b.size_) := by
  have hid : id ≠ h.next := Nat.ne_of_lt (Heap.wf_lt_next hwf hb)
  have hid' : h.next ≠ id := fun he => hid he.symm
  have htklen : (blk.take b.size_).length = b.size_ := by
    simp [Nat.min_eq_left hlen]
  have hreadb : b.readCells h = some (blk.take b.size_) := by
    unfold Buffer.readCells
    rw [hp]
    exact Heap.readRange_of_findBlock hb hlen
  have hread2 : ∀ rest : List (Nat × Block α),
      Buffer.readCells ⟨b.size_, some h.next⟩
        ⟨h.next + 1, (h.next, blk.take b.size_) :: rest⟩ = some (blk.take b.size_) := by
    intro rest
    unfold Buffer.readCells
    rw [Heap.readRange_of_findBlock (findBlock_cons_self _ _ _) (le_of_eq htklen.symm)]
    rw [List.take_take, Nat.min_self]
  refine ⟨Buffer.copyCtor_eq b h hwf hp hb hlen, ?_, ?_, ?_, ?_, ?_, ?_, ?_, ?_, ?_, ?_, ?_⟩
  · rw [hp]
    exact fun he => hid (Option.some.inj he).symm
  · rw [hread2, hreadb]
  · exact Buffer.readCells_congr b _ _ (fun id0 hp0 => by
      rw [hp] at hp0
      cases Option.some.inj hp0
      exact findBlock_cons_ne hid' _ _)
  · unfold Buffer.writeThrough Heap.writeCell
    simp only [if_pos hi]
    rw [findBlock_cons_self]
    simp only [htklen, if_pos hi]
    rw [updateBlock_cons_self]
  · exact Buffer.readCells_congr b _ _ (fun id0 hp0 => by
      rw [hp] at hp0
      cases Option.some.inj hp0
      exact findBlock_cons_ne hid' _ _)
  · simp [Buffer.destroy, Heap.free, findBlock_cons_self, removeBlock_cons_self]
  · exact Buffer.readCells_congr b _ _ (fun id0 hp0 => rfl)
  · unfold Buffer.writeThrough Heap.writeCell
    rw [hp]
    simp only [if_pos hi]
    rw [findBlock_cons_ne hid' _ _]
    have hbf : findBlock h.blocks id = some blk := hb
    rw [hbf]
    simp only [if_pos (Nat.lt_of_lt_of_le hi hlen)]
    rw [updateBlock_cons_ne hid' _ _]
  · exact hread2 _
  · have hbf : findBlock h.blocks id = some blk := hb
    simp [Buffer.destroy, Heap.free, hp, findBlock_cons_ne hid', hbf,
      removeBlock_cons_ne hid']
  · exact hread2 _

/-- C2 witness: the independence theorem applied to a concrete three-element
buffer, with the copy mutated at index 1. -/
theorem copyCtor_deep_copy_independent_witness :
    Buffer.copyCtor ⟨3, some 0⟩ (⟨1, [(0, [some (1 : Int), some 2, some 3])]⟩ : Heap Int)
      = some (⟨3, some 1⟩,
              ⟨2, [(1, [some 1, some 2, some 3]), (0, [some 1, some 2, some 3])]⟩) :=
  (copyCtor_deep_copy_independent (α := Int) ⟨3, some 0⟩
    ⟨1, [(0, [some 1, some 2, some 3])]⟩ 0 [some 1, some 2, some 3] 1 42
    (by decide) (by decide) (by decide) (by decide) (by decide)).1

/-- C8: Destroying a buffer whose data pointer is null — the default/empty or
moved-from state — is safe: `delete[] nullptr` is a no-op, so destruction
succeeds (it is not undefined behaviour, hence no crash and no double free)
and leaves the heap completely unchanged; in particular, destroying the
moved-from source produced by a move construction has no effect on the
allocation now owned by the move destination. -/
theorem destroy_empty_safe {α : Type} (b : Buffer) (h : Heap α) (hb : b.ptr_ = none) :
    b.destroy h = some h ∧
    (Buffer.moveCtor b).2.destroy h = some h ∧
    (Buffer.moveCtor b).1.readCells h = b.readCells h := by
  refine ⟨?_, rfl, rfl⟩
  unfold Buffer.destroy Heap.free
  rw [hb]

/-- C8 witness: destroying a moved-from buffer next to a live allocation
leaves that allocation untouched. -/
theorem destroy_empty_safe_witness :
    Buffer.destroy ⟨0, none⟩ (⟨1, [(0, [some (5 : Int)])]⟩ : Heap Int)
      = some ⟨1, [(0, [some 5])]⟩ :=
  (destroy_empty_safe (α := Int) ⟨0, none⟩ ⟨1, [(0, [some 5])]⟩ (by decide)).1

/-! ## Well-formedness preservation, for the amended C7 invariant -/


theorem Buffer.wfIn_none_iff {α : Type} {b : Buffer} (h : Heap α) (hp : b.ptr_ = none) :
    b.wfIn h ↔ b.size_ = 0 := by
  unfold Buffer.wfIn
  rw [hp]

theorem Buffer.wfIn_some_iff {α : Type} {b : Buffer} (h : Heap α) {id : Nat}
    (hp : b.ptr_ = some id) :
    b.wfIn h ↔ (h.lookupBlock id).map (fun blk => blk.length) = some b.size_ := by
  unfold Buffer.wfIn
  rw [hp]

theorem Heap.free_wf {α : Type} {h h2 : Heap α} {p : Option Nat}
    (hwf : h.wf) (hf : h.free p = some h2) : h2.wf := by
  unfold Heap.free at hf
  split at hf
  · cases hf
    exact hwf
  · split at hf
    · cases hf
    · cases hf
      exact fun q hq => hwf q (mem_removeBlock hq)

theorem Heap.free_next {α : Type} {h h2 : Heap α} {p : Option Nat}
    (hf : h.free p = some h2) : h2.next = h.next := by
  unfold Heap.free at hf
  split at hf
  · cases hf
    rfl
  · split at hf
    · cases hf
    · cases hf
      rfl

/-- Freeing one buffer's pointer leaves the lookup of a different (or null)
pointer unchanged. -/
theorem Heap.free_lookup_ne {α : Type} {h h2 : Heap α} {p : Option Nat}
    (hf : h.free p = some h2) {id : Nat} (hne : p ≠ some id) :
    h2.lookupBlock id = h.lookupBlock id := by
  unfold Heap.free at hf
  split at hf
  · cases hf
    rfl
  · split at hf
    · cases hf
    · cases hf
      rename_i idp _ _ _
      exact findBlock_removeBlock_ne (fun he => hne (by rw [he]))

/-- Freeing one buffer's pointer preserves the validity of a buffer that does
not share that pointer. -/
theorem Heap.free_preserves_wfIn {α : Type} {h h2 : Heap α} {p : Option Nat}
    (hf : h.free p = some h2) (b : Buffer) (hb : b.wfIn h)
    (hne : b.ptr_ = none ∨ b.ptr_ ≠ p) : b.wfIn h2 := by
  cases hp : b.ptr_ with
  | none =>
    rw [Buffer.wfIn_none_iff h2 hp]
    rw [Buffer.wfIn_none_iff h hp] at hb
    exact hb
  | some id =>
    rw [Buffer.wfIn_some_iff h2 hp]
    rw [Buffer.wfIn_some_iff h hp] at hb
    have hpid : p ≠ some id := by
      rcases hne with hc | hc
      · rw [hp] at hc
        cases hc
      · rw [hp] at hc
        exact fun he => hc (he ▸ rfl)
    rw [Heap.free_lookup_ne hf hpid]
    exact hb

/-- The copy-assignment body after `delete[] ptr_` coincides with the copy
constructor run on the post-free heap. -/
theorem Buffer.copyAssign_eq_free_copyCtor {α : Type} (dst src : Buffer) (h : Heap α) :
    Buffer.copyAssign dst src h
      = match h.free dst.ptr_ with
        | none => none
        | some h1 => Buffer.copyCtor src h1 := rfl

/-- Any successful copy construction from a valid source yields a valid
buffer-heap pair. -/
theorem Buffer.copyCtor_wfIn {α : Type} {src b2 : Buffer} {h h2 : Heap α}
    (hwf : h.wf) (hsrc : src.wfIn h) (hcc : Buffer.copyCtor src h = some (b2, h2)) :
    b2.wfIn h2 := by
  cases hp : src.ptr_ with
  | none =>
    rw [Buffer.wfIn_none_iff h hp] at hsrc
    rw [Buffer.copyCtor_none_eq src h hp hsrc] at hcc
    cases hcc
    rw [Buffer.wfIn_some_iff _ (show (⟨0, some h.next⟩ : Buffer).ptr_ = some h.next from rfl)]
    unfold Heap.lookupBlock
    simp only
    rw [findBlock_cons_self]
    rfl
  | some id =>
    rw [Buffer.wfIn_some_iff h hp] at hsrc
    cases hlook : h.lookupBlock id with
    | none =>
      rw [hlook] at hsrc
      cases hsrc
    | some blk =>
      rw [hlook] at hsrc
      have hlen : src.size_ = blk.length := by
        simpa using hsrc.symm
      rw [Buffer.copyCtor_eq src h hwf hp hlook (le_of_eq hlen)] at hcc
      cases hcc
      rw [Buffer.wfIn_some_iff _ (show (⟨src.size_, some h.next⟩ : Buffer).ptr_ = some h.next
        from rfl)]
      unfold Heap.lookupBlock
      simp only
      rw [findBlock_cons_self]
      simp [Nat.min_eq_left (le_of_eq hlen)]

/-- Computation of the traced self-copy-assignment once `delete[] ptr_` has
succeeded: the result points at a fresh block of `size_` cells that are all
still uninitialized (the `std::copy` source aliased the fresh block itself). -/
theorem Buffer.copyAssignSelf_eq {α : Type} (b : Buffer) {h h1 : Heap α}
    (hf : h.free b.ptr_ = some h1) :
    Buffer.copyAssignSelf b h
      = some (⟨b.size_, some h1.next⟩,
              ⟨h1.next + 1, (h1.next, List.replicate b.size_ none) :: h1.blocks⟩) := by
  have hr : (Heap.mk (h1.next + 1)
      ((h1.next, List.replicate b.size_ (none : Cell α)) :: h1.blocks)).readRange
        (some h1.next) b.size_ = some (List.replicate b.size_ none) := by
    rw [Heap.readRange_of_findBlock (findBlock_cons_self _ _ _) (by simp)]
    simp [List.take_replicate]
  have hs := Heap.storeCells_alloc h1 b.size_ (List.replicate b.size_ (none : Cell α)) (by simp)
  unfold Buffer.copyAssignSelf Heap.allocArray
  rw [hf]
  simp only
  rw [hr]
  simp [hs]

/-- A successful traced self-copy-assignment yields a valid buffer-heap pair. -/
theorem Buffer.copyAssignSelf_wfIn {α : Type} {b b4 : Buffer} {h h4 : Heap α}
    (hca : Buffer.copyAssignSelf b h = some (b4, h4)) : b4.wfIn h4 := by
  cases hf : h.free b.ptr_ with
  | none =>
    unfold Buffer.copyAssignSelf at hca
    rw [hf] at hca
    simp at hca
  | some h1 =>
    rw [Buffer.copyAssignSelf_eq b hf] at hca
    cases hca
    rw [Buffer.wfIn_some_iff _ rfl]
    unfold Heap.lookupBlock
    simp only
    rw [findBlock_cons_self]
    simp

/-- C7 (amended): the invariant that actually holds across the rule-of-five
operations is `Buffer.wfIn`: a NULL data pointer implies size 0, and a
non-null pointer refers to a live allocation of exactly `size_` cells.  The
claimed direction "size 0 implies null pointer" fails (see the counterexample:
construction from the empty sequence yields size 0 with a non-null pointer to
a zero-length allocation).  Given valid, non-aliased inputs in a sane heap,
every operation — construction from any sequence, copy construction, copy
assignment (aliased or not), move construction and move assignment — produces
only buffers satisfying this invariant, and move sources are left exactly in
the null/size-0 state. -/
theorem rule_of_five_pointer_invariant {α : Type}
    (vals : List α) (h : Heap α) (b dst src : Buffer)
    (b1 b2 b3 b4 : Buffer) (h1 h2 h3 h4 : Heap α)
    (hwf : h.wf) (hb : b.wfIn h) (hsrc : src.wfIn h)
    (halias : dst.ptr_ = none ∨ dst.ptr_ ≠ src.ptr_)
    (hinit : Buffer.initList vals h = some (b1, h1))
    (hcc : Buffer.copyCtor b h = some (b2, h2))
    (hca : Buffer.copyAssign dst src h = some (b3, h3))
    (hcas : Buffer.copyAssignSelf b h = some (b4, h4)) :
    b1.wfIn h1 ∧ b2.wfIn h2 ∧ b3.wfIn h3 ∧ b4.wfIn h4 ∧
    (Buffer.moveCtor b).1.wfIn h ∧
    (Buffer.moveCtor b).2.wfIn h ∧ (Buffer.moveCtor b).2 = ⟨0, none⟩ ∧
    (Buffer.moveAssign dst src h).1.wfIn (Buffer.moveAssign dst src h).2.2 ∧
    (Buffer.moveAssign dst src h).2.1.wfIn (Buffer.moveAssign dst src h).2.2 ∧
    (Buffer.moveAssign dst src h).2.1 = ⟨0, none⟩ := by
  refine ⟨?_, ?_, ?_, Buffer.copyAssignSelf_wfIn hcas, ?_, ?_, rfl, ?_, ?_, rfl⟩
  · rw [Buffer.initList_eq] at hinit
    cases hinit
    rw [Buffer.wfIn_some_iff _ rfl]
    unfold Heap.lookupBlock
    simp only
    rw [findBlock_cons_self]
    simp
  · exact Buffer.copyCtor_wfIn hwf hb hcc
  · rw [Buffer.copyAssign_eq_free_copyCtor] at hca
    cases hf : h.free dst.ptr_ with
    | none =>
      rw [hf] at hca
      simp at hca
    | some hmid =>
      rw [hf] at hca
      simp only at hca
      have hwf1 : hmid.wf := by
        have := Heap.free_wf hwf hf
        have hn := Heap.free_next hf
        exact fun q hq => hn ▸ this q hq
      have hsrc1 : src.wfIn hmid := by
        rcases halias with hnone | hne
        · rw [hnone] at hf
          cases hf
          exact hsrc
        · exact Heap.free_preserves_wfIn hf src hsrc
            (Or.inr (by
              cases hps : src.ptr_ with
              | none => simp [hps] at hne ⊢; exact fun he => hne he.symm
              | some ids => simp [hps] at hne ⊢; exact fun he => hne (by rw [he])))
      exact Buffer.copyCtor_wfIn hwf1 hsrc1 hca
  · exact hb
  · rw [Buffer.wfIn_none_iff _ rfl]
    rfl
  · exact hsrc
  · rw [Buffer.wfIn_none_iff _ rfl]
    rfl

/-- C7 witness: the amended invariant theorem applied to concrete buffers over
a concrete two-block heap. -/
theorem rule_of_five_pointer_invariant_witness :
    Buffer.wfIn ⟨2, some 2⟩
      (⟨3, [(2, [some (4 : Int), some 5]), (0, [some 1, some 2]), (1, [some 7])]⟩ : Heap Int) ∧
    Buffer.wfIn ⟨2, some 2⟩
      (⟨3, [(2, [some (1 : Int), some 2]), (0, [some 1, some 2]), (1, [some 7])]⟩ : Heap Int) ∧
    Buffer.wfIn ⟨2, some 2⟩
      (⟨3, [(2, [some (1 : Int), some 2]), (0, [some 1, some 2])]⟩ : Heap Int) ∧
    Buffer.wfIn ⟨2, some 2⟩ (⟨3, [(2, [none, none]), (1, [some (7 : Int)])]⟩ : Heap Int) ∧
    (Buffer.moveCtor ⟨2, some 0⟩).1.wfIn
      (⟨2, [(0, [some (1 : Int), some 2]), (1, [some 7])]⟩ : Heap Int) ∧
    (Buffer.moveCtor ⟨2, some 0⟩).2.wfIn
      (⟨2, [(0, [some (1 : Int), some 2]), (1, [some 7])]⟩ : Heap Int) ∧
    (Buffer.moveCtor ⟨2, some 0⟩).2 = ⟨0, none⟩ ∧
    (Buffer.moveAssign ⟨1, some 1⟩ ⟨2, some 0⟩
        (⟨2, [(0, [some (1 : Int), some 2]), (1, [some 7])]⟩ : Heap Int)).1.wfIn
      (Buffer.moveAssign ⟨1, some 1⟩ ⟨2, some 0⟩
        (⟨2, [(0, [some (1 : Int), some 2]), (1, [some 7])]⟩ : Heap Int)).2.2 ∧
    (Buffer.moveAssign ⟨1, some 1⟩ ⟨2, some 0⟩
        (⟨2, [(0, [some (1 : Int), some 2]), (1, [some 7])]⟩ : Heap Int)).2.1.wfIn
      (Buffer.moveAssign ⟨1, some 1⟩ ⟨2, some 0⟩
        (⟨2, [(0, [some (1 : Int), some 2]), (1, [some 7])]⟩ : Heap Int)).2.2 ∧
    (Buffer.moveAssign ⟨1, some 1⟩ ⟨2, some 0⟩
        (⟨2, [(0, [some (1 : Int), some 2]), (1, [some 7])]⟩ : Heap Int)).2.1 = ⟨0, none⟩ :=
  rule_of_five_pointer_invariant [(4 : Int), 5]
    ⟨2, [(0, [some 1, some 2]), (1, [some 7])]⟩ ⟨2, some 0⟩ ⟨1, some 1⟩ ⟨2, some 0⟩
    ⟨2, some 2⟩ ⟨2, some 2⟩ ⟨2, some 2⟩ ⟨2, some 2⟩
    ⟨3, [(2, [some 4, some 5]), (0, [some 1, some 2]), (1, [some 7])]⟩
    ⟨3, [(2, [some 1, some 2]), (0, [some 1, some 2]), (1, [some 7])]⟩
    ⟨3, [(2, [some 1, some 2]), (0, [some 1, some 2])]⟩
    ⟨3, [(2, [none, none]), (1, [some 7])]⟩
    (by decide) (by decide) (by decide) (by decide)
    (by decide) (by decide) (by decide) (by decide)
